import Mathlib

/-!
Verification of the adaptive traffic-signal controller
(`frontend/public/sim/ai_controller.js`) and the simulation engine it
drives (signal globals, button handlers and baseline comparison logic).

JavaScript numbers are embedded as rationals (`ℚ`); queue counts are
naturals.  The Q-table object is embedded as an association list from
string state keys to a `{KEEP, SWITCH}` value pair, mirroring the lazy
entry creation of `getQValue`/`setQValue`.  The asynchronous
`performSwitch` (which sleeps between setting the outgoing phase to
YELLOW and completing the swap) is embedded as two separate atomic
events on the signal state, so that arbitrary interleavings with the
other signal-mutating handlers are covered.
-/

namespace AITraffic

/-- Signal states, `SIGNAL = { RED: 'R', GREEN: 'G', YELLOW: 'Y' }`. -/
inductive Sig where
  | RED
  | GREEN
  | YELLOW
deriving DecidableEq

/-- The two composite signals, `signals = { NS, EW }`. -/
structure Signals where
  NS : Sig
  EW : Sig
deriving DecidableEq

/-- The two traffic axes. -/
inductive Axis where
  | NS
  | EW
deriving DecidableEq

/-- The agent's action space. -/
inductive Action where
  | KEEP
  | SWITCH
deriving DecidableEq

-- ── Q_CONFIG ──────────────────────────────────────────────────────────────

def qAlpha : ℚ := 0.15
def qGamma : ℚ := 0.9
def epsilon0 : ℚ := 0.3
def epsilonDecay : ℚ := 0.998
def epsilonMin : ℚ := 0.05
def queueBins : List ℚ := [0, 3, 7, 12, 20]
def redBins : List ℚ := [0, 10, 30, 60, 100]

-- ── FAIR_CONFIG ───────────────────────────────────────────────────────────

def fairAlpha : ℚ := 0.6
def fairBeta : ℚ := 0.4
def starvationThreshold : ℚ := 120
def minGreen : ℚ := 7
def maxGreen : ℚ := 60

-- ── comparisonData constants ──────────────────────────────────────────────

def baselineDuration : ℚ := 60
def baselinePhaseInterval : ℚ := 30

-- ── discretize ────────────────────────────────────────────────────────────

/-- Helper for `discretize`: scan indices `n-1, n-2, …, 0` and return the
first index `i` with `value ≥ bins[i]`; if none holds return `0`
(matching the loop in `discretize` together with its final default). -/
def discretizeAux (value : ℚ) (bins : List ℚ) : ℕ → ℕ
  | 0 => 0
  | i + 1 => if value ≥ bins.getD i 0 then i else discretizeAux value bins i

/-- `discretize(value, bins)`: scan `i` from `bins.length - 1` down to `0`,
return the first `i` with `value >= bins[i]`, else `0`. -/
def discretize (value : ℚ) (bins : List ℚ) : ℕ :=
  discretizeAux value bins bins.length

/-- `getStateKey(qNS, qEW, maxRedDuration)` builds the string key
`qNSBin + "_" + qEWBin + "_" + redBin`. -/
def getStateKey (qNS qEW maxRedDuration : ℚ) : String :=
  toString (discretize qNS queueBins) ++ ("_") ++
    toString (discretize qEW queueBins) ++ ("_") ++
    toString (discretize maxRedDuration redBins)

-- ── Q-table ───────────────────────────────────────────────────────────────

/-- One Q-table entry, `{ KEEP: _, SWITCH: _ }`. -/
structure QEntry where
  keep : ℚ
  sw : ℚ
deriving DecidableEq

/-- The Q-table object: an association list from state keys to entries. -/
abbrev QTableT := List (String × QEntry)

/-- Read the value of one action from an entry. -/
def QEntry.val (e : QEntry) : Action → ℚ
  | .KEEP => e.keep
  | .SWITCH => e.sw

/-- Overwrite the value of one action in an entry. -/
def QEntry.set (e : QEntry) : Action → ℚ → QEntry
  | .KEEP, v => { e with keep := v }
  | .SWITCH, v => { e with sw := v }

/-- `if (!qTable[stateKey]) qTable[stateKey] = { KEEP: 0, SWITCH: 0 }`:
lazily create the entry for a key. -/
def ensureKey (t : QTableT) (k : String) : QTableT :=
  match t.lookup k with
  | some _ => t
  | none => t ++ [(k, ⟨0, 0⟩)]

/-- `getQValue(stateKey, action)`: lazily create the entry, then read the
requested action value.  Returns the value together with the (possibly
extended) table, since entry creation is a side effect on `qTable`. -/
def getQValue (t : QTableT) (k : String) (a : Action) : ℚ × QTableT :=
  let t2 := ensureKey t k
  match t2.lookup k with
  | some e => (e.val a, t2)
  | none => (0, t2)

/-- `setQValue(stateKey, action, value)`: lazily create the entry, then
overwrite the requested action value. -/
def setQValue (t : QTableT) (k : String) (a : Action) (v : ℚ) : QTableT :=
  (ensureKey t k).map fun p => if p.1 = k then (p.1, p.2.set a v) else p

/-- `getBestAction(stateKey)`: `keep >= sw ? 'KEEP' : 'SWITCH'` (the two
`getQValue` calls may extend the table). -/
def getBestAction (t : QTableT) (k : String) : Action × QTableT :=
  let kr := getQValue t k .KEEP
  let sr := getQValue kr.2 k .SWITCH
  (if kr.1 ≥ sr.1 then .KEEP else .SWITCH, sr.2)

-- ── basic discretize lemmas ───────────────────────────────────────────────

theorem discretizeAux_le (value : ℚ) (bins : List ℚ) :
    ∀ n, discretizeAux value bins n ≤ n - 1 := by
  intro n
  induction n with
  | zero => simp [discretizeAux]
  | succ i ih =>
    simp only [discretizeAux]
    split
    · simp
    · exact le_trans ih (by omega)

theorem discretize_lt_length (value : ℚ) (bins : List ℚ) (h : bins ≠ []) :
    discretize value bins < bins.length := by
  have hlen : 0 < bins.length := List.length_pos.mpr h
  have := discretizeAux_le value bins bins.length
  unfold discretize
  omega

-- ── Simulation snapshot ───────────────────────────────────────────────────

/-- Vehicle origin direction. -/
inductive Dir where
  | N
  | S
  | E
  | W
deriving DecidableEq

/-- The per-vehicle fields read by the controller: `active`, `waiting`,
`origin` (a snapshot of the `vehicles` array). -/
structure VSnap where
  active : Bool
  waiting : Bool
  origin : Dir
deriving DecidableEq

/-- Per-direction waiting-vehicle counts (the object built by
`getQueues`; its `NS`/`EW` sums are recomputed where used). -/
structure Queues where
  N : ℕ
  S : ℕ
  E : ℕ
  W : ℕ
deriving DecidableEq

/-- `getQueues()`: count waiting vehicles by origin. -/
def getQueues (vs : List VSnap) : Queues :=
  vs.foldl (fun q v =>
    if v.waiting then
      match v.origin with
      | .N => { q with N := q.N + 1 }
      | .S => { q with S := q.S + 1 }
      | .E => { q with E := q.E + 1 }
      | .W => { q with W := q.W + 1 }
    else q) ⟨0, 0, 0, 0⟩

-- ── World state ───────────────────────────────────────────────────────────

/-- One entry of `laneState`: `{ redDuration, priority }`. -/
structure LaneInfo where
  redDuration : ℚ
  priority : ℚ
deriving DecidableEq

/-- `laneState` with its four lanes. -/
structure LaneState where
  N : LaneInfo
  S : LaneInfo
  E : LaneInfo
  W : LaneInfo
deriving DecidableEq

/-- `emissionsTotal` accumulator. -/
structure Emissions where
  co2 : ℚ
  fuel : ℚ
  nox : ℚ
deriving DecidableEq

/-- The `metrics` global (startTime, a wall-clock value, is omitted). -/
structure Metrics where
  total : ℕ
  totalWait : ℚ
  throughput : ℕ
deriving DecidableEq

/-- `comparisonData.baseline` record. -/
structure BRecord where
  avgWait : ℚ
  co2 : ℚ
  fuel : ℚ
  nox : ℚ
  maxWait : ℚ
  duration : ℚ
  throughput : ℕ
deriving DecidableEq

/-- `comparisonData.ai` record. -/
structure ARecord where
  avgWait : ℚ
  co2 : ℚ
  fuel : ℚ
  nox : ℚ
  duration : ℚ
  throughput : ℕ
deriving DecidableEq

/-- The combined mutable state of the simulation engine and the
`AIController` (file-scope globals plus controller fields).  The
`vehicles` array itself lives in the simulation collaborator and is
passed to the controller as a `List VSnap` snapshot. -/
structure World where
  isRunning : Bool
  isAIEnabled : Bool
  signals : Signals
  metrics : Metrics
  cleared : ℕ
  simElapsedTime : ℚ
  emissionsTotal : Emissions
  laneState : LaneState
  qTable : QTableT
  currentEpsilon : ℚ
  totalReward : ℚ
  prevStateKey : Option String
  prevAction : Option Action
  episodeSteps : ℕ
  starvationEvents : ℕ
  switching : Bool
  isRunningBaseline : Bool
  baselineTimer : ℚ
  baselinePhaseTimer : ℚ
  baselineRecord : Option BRecord
  aiRecord : Option ARecord
deriving DecidableEq

/-- The initial values of all globals at script load. -/
def initialWorld : World where
  isRunning := false
  isAIEnabled := false
  signals := ⟨Sig.RED, Sig.GREEN⟩
  metrics := ⟨0, 0, 0⟩
  cleared := 0
  simElapsedTime := 0
  emissionsTotal := ⟨0, 0, 0⟩
  laneState := ⟨⟨0, 0⟩, ⟨0, 0⟩, ⟨0, 0⟩, ⟨0, 0⟩⟩
  qTable := []
  currentEpsilon := epsilon0
  totalReward := 0
  prevStateKey := none
  prevAction := none
  episodeSteps := 0
  starvationEvents := 0
  switching := false
  isRunningBaseline := false
  baselineTimer := 0
  baselinePhaseTimer := 0
  baselineRecord := none
  aiRecord := none

-- ── tick() ────────────────────────────────────────────────────────────────

/-- `EMISSIONS.IDLE` / `EMISSIONS.MOVING` per-second rates. -/
def emissionRate (waiting : Bool) : Emissions :=
  if waiting then ⟨2.3, 0.0008, 0.015⟩ else ⟨0.5, 0.0002, 0.003⟩

/-- The per-tick emission sums (`tickCO2`, `tickFuel`, `tickNOx`), where
`d` is `dt * timeScale`. -/
def tickEmissions (vs : List VSnap) (d : ℚ) : Emissions :=
  vs.foldl (fun e v =>
    if v.active then
      let r := emissionRate v.waiting
      ⟨e.co2 + r.co2 * d, e.fuel + r.fuel * d, e.nox + r.nox * d⟩
    else e) ⟨0, 0, 0⟩

/-- Pointwise addition of emission accumulators. -/
def addEmissions (a b : Emissions) : Emissions :=
  ⟨a.co2 + b.co2, a.fuel + b.fuel, a.nox + b.nox⟩

/-- Red-duration update for one lane: accumulate while the lane's
composite signal is not GREEN, reset to 0 while it is GREEN. -/
def advanceLane (sig : Sig) (d : ℚ) (l : LaneInfo) : LaneInfo :=
  if sig ≠ Sig.GREEN then { l with redDuration := l.redDuration + d }
  else { l with redDuration := 0 }

/-- The lane-state part of `tick()`: update the four red durations, then
recompute the four priorities from the fresh queue snapshot and red
durations (`priority = α·normQ + β·normRed`). -/
def tickLanes (q : Queues) (s : Signals) (d : ℚ) (ls : LaneState) : LaneState :=
  let ln := advanceLane s.NS d ls.N
  let lsouth := advanceLane s.NS d ls.S
  let le := advanceLane s.EW d ls.E
  let lw := advanceLane s.EW d ls.W
  let maxQ : ℚ := max 1 (max (max (q.N : ℚ) (q.S : ℚ)) (max (q.E : ℚ) (q.W : ℚ)))
  let maxRed : ℚ := max 1 (max (max ln.redDuration lsouth.redDuration)
    (max le.redDuration lw.redDuration))
  let prio := fun (qc : ℕ) (l : LaneInfo) =>
    { l with priority := fairAlpha * ((qc : ℚ) / maxQ) + fairBeta * (l.redDuration / max maxRed 1) }
  ⟨prio q.N ln, prio q.S lsouth, prio q.E le, prio q.W lw⟩

/-- The fixed baseline flip: `NS GREEN → (RED, GREEN← for EW)`, else
`EW RED, NS GREEN`. -/
def baselineFlipSig (s : Signals) : Signals :=
  if s.NS = Sig.GREEN then ⟨Sig.RED, Sig.GREEN⟩ else ⟨Sig.GREEN, Sig.RED⟩

/-- `endBaseline()`: snapshot the baseline `ComparisonRecord`, zero the
accumulators, re-enable AI mode (the `toFixed` display rounding is
omitted; values are kept exact). -/
def endBaselineFn (w : World) : World :=
  let avgWait : ℚ :=
    if w.metrics.throughput > 0 then w.metrics.totalWait / (w.metrics.throughput : ℚ) else 0
  let maxRedAll := max (max w.laneState.N.redDuration w.laneState.S.redDuration)
    (max w.laneState.E.redDuration w.laneState.W.redDuration)
  { w with
    isRunningBaseline := false
    baselineRecord := some ⟨avgWait, w.emissionsTotal.co2, w.emissionsTotal.fuel,
      w.emissionsTotal.nox, maxRedAll, baselineDuration, w.metrics.throughput⟩
    emissionsTotal := ⟨0, 0, 0⟩
    metrics := { w.metrics with totalWait := 0, throughput := 0 }
    cleared := 0
    isAIEnabled := true }

/-- The baseline-timer block at the end of `tick()`: advance both
timers, flip the phase when the phase timer reaches the 30s interval,
then end the run when the baseline timer reaches the 60s duration.
The flip check precedes the end-of-run check. -/
def baselineBlock (d : ℚ) (w : World) : World :=
  if w.isRunningBaseline then
    let w1 := { w with
      baselineTimer := w.baselineTimer + d
      baselinePhaseTimer := w.baselinePhaseTimer + d }
    let w2 :=
      if w1.baselinePhaseTimer ≥ baselinePhaseInterval then
        { w1 with baselinePhaseTimer := 0, signals := baselineFlipSig w1.signals }
      else w1
    if w2.baselineTimer ≥ baselineDuration then endBaselineFn w2 else w2
  else w

/-- `AIController.tick()`: emissions accumulation, red-duration and
priority updates, then the baseline timer logic.  `dt` is the elapsed
wall-clock seconds since the previous tick and `ts` the `timeScale`
multiplier; every accumulation uses `dt * timeScale`. -/
def tick (dt ts : ℚ) (vs : List VSnap) (w : World) : World :=
  if w.isRunning then
    let d := dt * ts
    let w1 := { w with
      emissionsTotal := addEmissions w.emissionsTotal (tickEmissions vs d)
      laneState := tickLanes (getQueues vs) w.signals d w.laneState }
    baselineBlock d w1
  else w

-- ── update() ──────────────────────────────────────────────────────────────

/-- What a decision tick did: nothing, a forced switch (starvation or
max-green), or an agent decision.  Each `…Switch` outcome corresponds to
an invocation of the asynchronous `performSwitch()`. -/
inductive Outcome where
  | notRun
  | starvationSwitch
  | maxGreenSwitch
  | agentSwitch
  | agentKeep
deriving DecidableEq

/-- The reward-credit block of `update()`: when a previous
(state, action) pair is pending, compute
`reward = -(totalWaiting) + fairnessBonus`, add it to `totalReward`,
and apply the one-step Q-update
`Q(s,a) ← Q(s,a) + α·(reward + γ·max Q(s',·) − Q(s,a))` (the three
`getQValue` reads may lazily extend the table). -/
def creditPrev (stateKey : String) (q : Queues) (maxRedNS maxRedEW : ℚ) (w : World) : World :=
  match w.prevStateKey, w.prevAction with
  | some pk, some pa =>
      let totalWaiting : ℚ := ((q.N + q.S : ℕ) : ℚ) + ((q.E + q.W : ℕ) : ℚ)
      let fairnessBonus : ℚ := -|maxRedNS - maxRedEW| * 0.1
      let reward := -totalWaiting + fairnessBonus
      let g1 := getQValue w.qTable pk pa
      let g2 := getQValue g1.2 stateKey .KEEP
      let g3 := getQValue g2.2 stateKey .SWITCH
      let bestFuture := max g2.1 g3.1
      let newQ := g1.1 + qAlpha * (reward + qGamma * bestFuture - g1.1)
      { w with totalReward := w.totalReward + reward, qTable := setQValue g3.2 pk pa newQ }
  | _, _ => w

/-- The Q-learning tail of `update()`: reward credit for the previous
(state, action) pair, ε-greedy selection (`r1` models the first
`Math.random()` draw, `r2` the explore coin), ε decay, and episode
memory overwrite. -/
def qLearnStep (stateKey : String) (q : Queues) (maxRedNS maxRedEW : ℚ)
    (r1 r2 : ℚ) (w : World) : World × Outcome :=
  let w1 := creditPrev stateKey q maxRedNS maxRedEW w
  let sel :=
    if r1 < w1.currentEpsilon then
      ((if r2 < 0.5 then Action.KEEP else Action.SWITCH), w1.qTable)
    else getBestAction w1.qTable stateKey
  let w2 := { w1 with
    qTable := sel.2
    currentEpsilon := max epsilonMin (w1.currentEpsilon * epsilonDecay)
    prevStateKey := some stateKey
    prevAction := some sel.1
    episodeSteps := w1.episodeSteps + 1 }
  if sel.1 = Action.SWITCH then (w2, .agentSwitch) else (w2, .agentKeep)

/-- `AIController.update()`, the decision tick.  `elapsed` is
`(now - lastSwitchTime) / 1000`.  The `Outcome` records which branch
ran; the signal effects of `performSwitch()` are modelled separately as
the `switchBegin…`/`switchEnd…` events because of its internal
asynchronous sleep. -/
def update (elapsed : ℚ) (vs : List VSnap) (r1 r2 : ℚ) (w : World) : World × Outcome :=
  if ¬ w.isRunning ∨ w.switching then (w, .notRun)
  else if w.isRunningBaseline then (w, .notRun)
  else if ¬ w.isAIEnabled then (w, .notRun)
  else
    let q := getQueues vs
    let maxRedNS := max w.laneState.N.redDuration w.laneState.S.redDuration
    let maxRedEW := max w.laneState.E.redDuration w.laneState.W.redDuration
    let currentPhase : Axis := if w.signals.NS = Sig.GREEN then .NS else .EW
    if currentPhase = Axis.NS ∧ maxRedEW > starvationThreshold ∧ elapsed ≥ minGreen then
      ({ w with starvationEvents := w.starvationEvents + 1 }, .starvationSwitch)
    else if currentPhase = Axis.EW ∧ maxRedNS > starvationThreshold ∧ elapsed ≥ minGreen then
      ({ w with starvationEvents := w.starvationEvents + 1 }, .starvationSwitch)
    else if elapsed < minGreen then (w, .notRun)
    else if elapsed > maxGreen then (w, .maxGreenSwitch)
    else
      let maxRed := if currentPhase = Axis.NS then maxRedEW else maxRedNS
      qLearnStep (getStateKey ((q.N + q.S : ℕ) : ℚ) ((q.E + q.W : ℕ) : ℚ) maxRed)
        q maxRedNS maxRedEW r1 r2 w

-- ── Button handlers and baseline control ──────────────────────────────────

/-- `btnReset.onclick`: stop the simulation, reset metrics, signals and
emission accumulators (the DOM updates are display-only). -/
def resetClick (w : World) : World :=
  { w with
    isRunning := false
    isAIEnabled := false
    metrics := ⟨0, 0, 0⟩
    cleared := 0
    simElapsedTime := 0
    signals := ⟨Sig.RED, Sig.GREEN⟩
    emissionsTotal := ⟨0, 0, 0⟩ }

/-- `AIController.startBaseline()`: a no-op while a baseline run is
active; otherwise zero the measured accumulators, arm the baseline
timers, disable AI and force NS green. -/
def startBaselineFn (w : World) : World :=
  if w.isRunningBaseline then w
  else
    { w with
      emissionsTotal := ⟨0, 0, 0⟩
      metrics := { w.metrics with totalWait := 0, throughput := 0 }
      cleared := 0
      baselineTimer := 0
      baselinePhaseTimer := 0
      isRunningBaseline := true
      isAIEnabled := false
      signals := ⟨Sig.GREEN, Sig.RED⟩ }

/-- `recordAIMetrics()` (fires one baseline duration after
`endBaseline`). -/
def recordAIMetricsFn (w : World) : World :=
  let avgWait : ℚ :=
    if w.metrics.throughput > 0 then w.metrics.totalWait / (w.metrics.throughput : ℚ) else 0
  { w with aiRecord := some ⟨avgWait, w.emissionsTotal.co2, w.emissionsTotal.fuel,
    w.emissionsTotal.nox, baselineDuration, w.metrics.throughput⟩ }

/-- `btnNS.onclick`: manual force button for the NS axis (ignored while
AI mode is on). -/
def forceNS (w : World) : World :=
  if w.isAIEnabled then w
  else if w.signals.NS ≠ Sig.GREEN then { w with signals := ⟨Sig.GREEN, Sig.RED⟩ }
  else { w with signals := ⟨Sig.RED, Sig.GREEN⟩ }

/-- `btnEW.onclick`: manual force button for the EW axis. -/
def forceEW (w : World) : World :=
  if w.isAIEnabled then w
  else if w.signals.EW ≠ Sig.GREEN then { w with signals := ⟨Sig.RED, Sig.GREEN⟩ }
  else { w with signals := ⟨Sig.GREEN, Sig.RED⟩ }

/-- `btnAI.onclick`: toggle AI mode. -/
def toggleAI (w : World) : World :=
  { w with isAIEnabled := !w.isAIEnabled }

/-- `btnStart.onclick`. -/
def btnStartFn (w : World) : World :=
  { w with isRunning := true, cleared := 0, simElapsedTime := 0 }

/-- `btnPause.onclick`. -/
def btnPauseFn (w : World) : World :=
  { w with isRunning := !w.isRunning }

-- ── Signal event automaton ────────────────────────────────────────────────

/-- Every atomic write to `signals` in the code base.  `performSwitch()`
contributes two events per branch: setting the outgoing phase to YELLOW
(`switchBegin…`) and, after its 2s sleep, completing the swap
(`switchEnd…`).  Splitting it this way over-approximates all possible
interleavings of the asynchronous switch with the other handlers. -/
inductive SigEvent where
  | baselineFlip
  | switchBeginNS
  | switchBeginEW
  | switchEndNS
  | switchEndEW
  | startBaselineEv
  | resetEv
  | forceNSEv
  | forceEWEv
deriving DecidableEq

/-- The effect of each signal-mutating event, transcribed from the
corresponding assignment sequences in the source. -/
def sigStep : SigEvent → Signals → Signals
  | .baselineFlip, s => baselineFlipSig s
  | .switchBeginNS, s => { s with NS := Sig.YELLOW }
  | .switchBeginEW, s => { s with EW := Sig.YELLOW }
  | .switchEndNS, _ => ⟨Sig.RED, Sig.GREEN⟩
  | .switchEndEW, _ => ⟨Sig.GREEN, Sig.RED⟩
  | .startBaselineEv, _ => ⟨Sig.GREEN, Sig.RED⟩
  | .resetEv, _ => ⟨Sig.RED, Sig.GREEN⟩
  | .forceNSEv, s => if s.NS ≠ Sig.GREEN then ⟨Sig.GREEN, Sig.RED⟩ else ⟨Sig.RED, Sig.GREEN⟩
  | .forceEWEv, s => if s.EW ≠ Sig.GREEN then ⟨Sig.RED, Sig.GREEN⟩ else ⟨Sig.GREEN, Sig.RED⟩

/-- Signal states reachable from the initial
`signals = { NS: RED, EW: GREEN }` by any interleaving of the
signal-mutating events.  The two `switchBegin…` constructors carry the
branch condition `performSwitch()` tests (`signals.NS === GREEN`); the
completion events are allowed at any time since other handlers may have
rewritten `signals` during the sleep. -/
inductive ReachableSig : Signals → Prop where
  | init : ReachableSig ⟨Sig.RED, Sig.GREEN⟩
  | flip {s} : ReachableSig s → ReachableSig (sigStep .baselineFlip s)
  | beginNS {s} : ReachableSig s → s.NS = Sig.GREEN → ReachableSig (sigStep .switchBeginNS s)
  | beginEW {s} : ReachableSig s → s.NS ≠ Sig.GREEN → ReachableSig (sigStep .switchBeginEW s)
  | endNS {s} : ReachableSig s → ReachableSig (sigStep .switchEndNS s)
  | endEW {s} : ReachableSig s → ReachableSig (sigStep .switchEndEW s)
  | startB {s} : ReachableSig s → ReachableSig (sigStep .startBaselineEv s)
  | reset {s} : ReachableSig s → ReachableSig (sigStep .resetEv s)
  | fNS {s} : ReachableSig s → ReachableSig (sigStep .forceNSEv s)
  | fEW {s} : ReachableSig s → ReachableSig (sigStep .forceEWEv s)

/-- Mutual exclusion of green phases, by induction over the event
automaton: every event either leaves the written axis non-GREEN or
writes one GREEN and one RED. -/
theorem sig_mutex {s : Signals} (h : ReachableSig s) :
    ¬ (s.NS = Sig.GREEN ∧ s.EW = Sig.GREEN) := by
  induction h with
  | init => simp
  | flip _ _ =>
    simp only [sigStep, baselineFlipSig]
    split <;> simp
  | beginNS _ _ _ => simp [sigStep]
  | beginEW _ hne _ => simp [sigStep]
  | endNS _ _ => simp [sigStep]
  | endEW _ _ => simp [sigStep]
  | startB _ _ => simp [sigStep]
  | reset _ _ => simp [sigStep]
  | fNS _ _ =>
    simp only [sigStep]
    split <;> simp
  | fEW _ _ =>
    simp only [sigStep]
    split <;> simp

-- ── Reachable worlds ──────────────────────────────────────────────────────

/-- World states reachable from script load by any sequence of
controller operations: physics/decision ticks with arbitrary snapshots
and random draws, and every user-facing handler. -/
inductive ReachableW : World → Prop where
  | init : ReachableW initialWorld
  | tickOp {w} (dt ts : ℚ) (vs : List VSnap) : ReachableW w → ReachableW (tick dt ts vs w)
  | updateOp {w} (elapsed : ℚ) (vs : List VSnap) (r1 r2 : ℚ) :
      ReachableW w → ReachableW (update elapsed vs r1 r2 w).1
  | resetOp {w} : ReachableW w → ReachableW (resetClick w)
  | startBaselineOp {w} : ReachableW w → ReachableW (startBaselineFn w)
  | recordAIOp {w} : ReachableW w → ReachableW (recordAIMetricsFn w)
  | forceNSOp {w} : ReachableW w → ReachableW (forceNS w)
  | forceEWOp {w} : ReachableW w → ReachableW (forceEW w)
  | toggleAIOp {w} : ReachableW w → ReachableW (toggleAI w)
  | startOp {w} : ReachableW w → ReachableW (btnStartFn w)
  | pauseOp {w} : ReachableW w → ReachableW (btnPauseFn w)

-- ── C1: mutual exclusion of green phases ──────────────────────────────────

/-- C1.  In every reachable signal state of the controller and
simulation (initial state, adaptive `performSwitch`, baseline
fixed-interval flips, and manual force buttons), it is never the case
that `signals.NS` and `signals.EW` are GREEN simultaneously. -/
theorem C1_mutual_exclusion (s : Signals) (h : ReachableSig s) :
    ¬ (s.NS = Sig.GREEN ∧ s.EW = Sig.GREEN) :=
  sig_mutex h

/-- Witness for C1 at the initial signal state. -/
theorem C1_mutual_exclusion_witness :
    ReachableSig ⟨Sig.RED, Sig.GREEN⟩ ∧
      ¬ ((⟨Sig.RED, Sig.GREEN⟩ : Signals).NS = Sig.GREEN ∧
         (⟨Sig.RED, Sig.GREEN⟩ : Signals).EW = Sig.GREEN) :=
  ⟨ReachableSig.init, C1_mutual_exclusion _ ReachableSig.init⟩

-- ── C3: yellow clearance ──────────────────────────────────────────────────

/-- The property claimed by the spec for *every* step of the system: if
an axis turns GREEN in one atomic signal event, the opposite axis is
YELLOW at that moment (it passed through YELLOW first). -/
def yellowBeforeGreen : Prop :=
  ∀ (e : SigEvent) (s : Signals), ReachableSig s →
    (((sigStep e s).NS = Sig.GREEN ∧ s.NS ≠ Sig.GREEN) → s.EW = Sig.YELLOW) ∧
    (((sigStep e s).EW = Sig.GREEN ∧ s.EW ≠ Sig.GREEN) → s.NS = Sig.YELLOW)

/-- The state `NS GREEN / EW RED` is reachable (initial state followed
by one baseline flip). -/
theorem reachable_greenNS : ReachableSig ⟨Sig.GREEN, Sig.RED⟩ := by
  have h := ReachableSig.flip (s := ⟨Sig.RED, Sig.GREEN⟩) ReachableSig.init
  simpa [sigStep, baselineFlipSig] using h

/-- Counterexample to C3 as stated: a baseline fixed-interval flip from
`NS GREEN / EW RED` turns EW GREEN in a single step while NS goes
directly from GREEN to RED, never passing through YELLOW. -/
theorem C3_counterexample : ¬ yellowBeforeGreen := by
  intro h
  have h2 := (h .baselineFlip ⟨Sig.GREEN, Sig.RED⟩ reachable_greenNS).2
  simp [sigStep, baselineFlipSig] at h2

/-- C3 (amended).  Only the adaptive `performSwitch` passes through
YELLOW: starting from any reachable signal state, the branch it takes
first sets the outgoing axis to YELLOW — with the incoming axis still
not GREEN — and only its completion step turns the incoming axis GREEN.
Baseline fixed-interval flips and the manual force buttons swap
RED/GREEN directly without a YELLOW phase (see the counterexample). -/
theorem C3_adaptive_yellow_clearance (s : Signals) (h : ReachableSig s) :
    (s.NS = Sig.GREEN →
      (sigStep .switchBeginNS s).NS = Sig.YELLOW ∧
      (sigStep .switchBeginNS s).EW ≠ Sig.GREEN ∧
      sigStep .switchEndNS (sigStep .switchBeginNS s) = ⟨Sig.RED, Sig.GREEN⟩) ∧
    (s.NS ≠ Sig.GREEN →
      (sigStep .switchBeginEW s).EW = Sig.YELLOW ∧
      (sigStep .switchBeginEW s).NS ≠ Sig.GREEN ∧
      sigStep .switchEndEW (sigStep .switchBeginEW s) = ⟨Sig.GREEN, Sig.RED⟩) := by
  constructor
  · intro hg
    refine ⟨rfl, ?_, rfl⟩
    have hm := sig_mutex h
    simp only [sigStep]
    intro hEW
    exact hm ⟨hg, hEW⟩
  · intro hn
    exact ⟨rfl, hn, rfl⟩

/-- Witness for the amended C3 at the reachable state
`NS GREEN / EW RED`. -/
theorem C3_adaptive_yellow_clearance_witness :
    (sigStep .switchBeginNS ⟨Sig.GREEN, Sig.RED⟩).NS = Sig.YELLOW ∧
    (sigStep .switchBeginNS ⟨Sig.GREEN, Sig.RED⟩).EW ≠ Sig.GREEN ∧
    sigStep .switchEndNS (sigStep .switchBeginNS ⟨Sig.GREEN, Sig.RED⟩) = ⟨Sig.RED, Sig.GREEN⟩ :=
  (C3_adaptive_yellow_clearance ⟨Sig.GREEN, Sig.RED⟩ reachable_greenNS).1 rfl

-- ── C4: what the reset control clears ─────────────────────────────────────

/-- A state in which lane N has accumulated red time and an episode is
pending, as arises during any adaptive run. -/
def w4 : World :=
  { initialWorld with
    laneState := ⟨⟨5, 0⟩, ⟨0, 0⟩, ⟨0, 0⟩, ⟨0, 0⟩⟩
    prevStateKey := some ("0_0_0")
    prevAction := some Action.KEEP }

/-- Counterexample to C4 as stated: the reset handler clears neither
the per-lane red durations nor the episode memory — after reset, lane
N's `redDuration` is still 5 and `prevStateKey` is still set. -/
theorem C4_counterexample :
    ¬ ((resetClick w4).laneState.N.redDuration = 0 ∧ (resetClick w4).prevStateKey = none) := by
  norm_num [resetClick, w4, initialWorld]

/-- C4 (amended).  The reset control clears the emissions and metrics
accumulators and leaves the learned Q-table unchanged; it also leaves
the per-lane `redDuration`/`priority` state and the episode memory
(`prevStateKey`, `prevAction`) unchanged. -/
theorem C4_reset_clears_accumulators_only (w : World) :
    (resetClick w).emissionsTotal = ⟨0, 0, 0⟩ ∧
    (resetClick w).metrics = ⟨0, 0, 0⟩ ∧
    (resetClick w).qTable = w.qTable ∧
    (resetClick w).laneState = w.laneState ∧
    (resetClick w).prevStateKey = w.prevStateKey ∧
    (resetClick w).prevAction = w.prevAction :=
  ⟨rfl, rfl, rfl, rfl, rfl, rfl⟩

-- ── C9: duplicate baseline start is a no-op ───────────────────────────────

/-- C9.  Calling `startBaseline` while a baseline run is already active
returns immediately and leaves the whole controller state unchanged. -/
theorem C9_startBaseline_noop (w : World) (h : w.isRunningBaseline = true) :
    startBaselineFn w = w := by
  simp [startBaselineFn, h]

/-- Witness for C9 in a state with an active baseline run. -/
theorem C9_startBaseline_noop_witness :
    startBaselineFn { initialWorld with isRunningBaseline := true } =
      { initialWorld with isRunningBaseline := true } :=
  C9_startBaseline_noop _ rfl

-- ── C2: the starvation override ───────────────────────────────────────────

/-- C2.  On a decision tick with the controller running, AI enabled, no
baseline active and no switch in flight: if the max red-duration of the
lanes on the currently-RED axis exceeds the 120s starvation threshold
and the elapsed time in phase is at least the 7s minimum green, the
tick takes the starvation branch — `performSwitch` is invoked
(`Outcome.starvationSwitch`) and `starvationEvents` is incremented —
for every ε, every Q-table and both random draws. -/
theorem C2_starvation_forces_switch (w : World) (elapsed : ℚ) (vs : List VSnap) (r1 r2 : ℚ)
    (hrun : w.isRunning = true) (hsw : w.switching = false)
    (hbase : w.isRunningBaseline = false) (hai : w.isAIEnabled = true)
    (hred : (if w.signals.NS = Sig.GREEN
        then max w.laneState.E.redDuration w.laneState.W.redDuration
        else max w.laneState.N.redDuration w.laneState.S.redDuration) > starvationThreshold)
    (helapsed : elapsed ≥ minGreen) :
    update elapsed vs r1 r2 w =
      ({ w with starvationEvents := w.starvationEvents + 1 }, Outcome.starvationSwitch) := by
  by_cases hg : w.signals.NS = Sig.GREEN
  · rw [if_pos hg] at hred
    simp [update, hrun, hsw, hbase, hai, hg, hred, helapsed]
  · rw [if_neg hg] at hred
    simp [update, hrun, hsw, hbase, hai, hg, hred, helapsed]

/-- A concrete starved state: NS green, lane E red for 121s. -/
def w2c : World :=
  { initialWorld with
    isRunning := true
    isAIEnabled := true
    signals := ⟨Sig.GREEN, Sig.RED⟩
    laneState := ⟨⟨0, 0⟩, ⟨0, 0⟩, ⟨121, 0⟩, ⟨0, 0⟩⟩ }

/-- Witness for C2 in the concrete starved state `w2c`. -/
theorem C2_starvation_forces_switch_witness :
    update 10 [] 0 0 w2c =
      ({ w2c with starvationEvents := w2c.starvationEvents + 1 }, Outcome.starvationSwitch) :=
  C2_starvation_forces_switch w2c 10 [] 0 0 rfl rfl rfl rfl
    (by simp only [w2c, initialWorld]; norm_num [lt_max_iff, starvationThreshold])
    (by norm_num [minGreen])

-- ── C10: forced switches leave the learning state untouched ───────────────

/-- The reward-credit block touches only `totalReward` and the
Q-table. -/
theorem creditPrev_frame (k : String) (q : Queues) (a b : ℚ) (w : World) :
    (creditPrev k q a b w).currentEpsilon = w.currentEpsilon ∧
    (creditPrev k q a b w).episodeSteps = w.episodeSteps := by
  unfold creditPrev
  cases w.prevStateKey <;> cases w.prevAction <;> exact ⟨rfl, rfl⟩

/-- Behaviour of the Q-learning tail of `update()`: it always overwrites
the episode memory with the fresh state key, decays ε, bumps the episode
counter and reports an agent outcome. -/
theorem qLearnStep_post (k : String) (q : Queues) (mNS mEW r1 r2 : ℚ) (w w2 : World)
    (o : Outcome) (h : qLearnStep k q mNS mEW r1 r2 w = (w2, o)) :
    w2.prevStateKey = some k ∧ (∃ a, w2.prevAction = some a) ∧
    w2.currentEpsilon = max epsilonMin (w.currentEpsilon * epsilonDecay) ∧
    w2.episodeSteps = w.episodeSteps + 1 ∧
    (o = Outcome.agentSwitch ∨ o = Outcome.agentKeep) := by
  have hf := creditPrev_frame k q mNS mEW w
  simp only [qLearnStep] at h
  repeat' split at h
  all_goals (cases h; simp [hf.1, hf.2])

set_option maxHeartbeats 1600000 in
/-- Case analysis on a decision tick: either it does nothing / forces a
max-green switch and leaves the state unchanged, or it takes the
starvation branch and only bumps `starvationEvents`, or it defers to
the Q-learning tail with the freshly discretized state key. -/
theorem update_shape (elapsed : ℚ) (vs : List VSnap) (r1 r2 : ℚ) (w : World) :
    (∃ o, update elapsed vs r1 r2 w = (w, o) ∧
      (o = Outcome.notRun ∨ o = Outcome.maxGreenSwitch)) ∨
    update elapsed vs r1 r2 w =
      ({ w with starvationEvents := w.starvationEvents + 1 }, Outcome.starvationSwitch) ∨
    (∃ mq, update elapsed vs r1 r2 w =
      qLearnStep (getStateKey (((getQueues vs).N + (getQueues vs).S : ℕ) : ℚ)
          (((getQueues vs).E + (getQueues vs).W : ℕ) : ℚ) mq)
        (getQueues vs)
        (max w.laneState.N.redDuration w.laneState.S.redDuration)
        (max w.laneState.E.redDuration w.laneState.W.redDuration) r1 r2 w) := by
  simp only [update]
  repeat' split
  all_goals first
    | exact Or.inl ⟨_, rfl, Or.inl rfl⟩
    | exact Or.inl ⟨_, rfl, Or.inr rfl⟩
    | exact Or.inr (Or.inl rfl)
    | exact Or.inr (Or.inr ⟨_, rfl⟩)

/-- C10.  When a decision tick ends in a forced switch (starvation
override or maximum-green), the learning state is untouched: the
Q-table, `currentEpsilon`, `totalReward`, `prevStateKey` and
`prevAction` are exactly as before the tick.  Only agent (Q-learned)
decision ticks decay ε and overwrite the pending (state, action) pair. -/
theorem C10_forced_switch_frame (w : World) (elapsed : ℚ) (vs : List VSnap) (r1 r2 : ℚ)
    (w2 : World) (o : Outcome) (h : update elapsed vs r1 r2 w = (w2, o)) :
    ((o = Outcome.starvationSwitch ∨ o = Outcome.maxGreenSwitch) →
      w2.qTable = w.qTable ∧ w2.currentEpsilon = w.currentEpsilon ∧
      w2.totalReward = w.totalReward ∧ w2.prevStateKey = w.prevStateKey ∧
      w2.prevAction = w.prevAction) ∧
    ((o = Outcome.agentSwitch ∨ o = Outcome.agentKeep) →
      (∃ k, w2.prevStateKey = some k) ∧ (∃ a, w2.prevAction = some a) ∧
      w2.currentEpsilon = max epsilonMin (w.currentEpsilon * epsilonDecay) ∧
      w2.episodeSteps = w.episodeSteps + 1) := by
  rcases update_shape elapsed vs r1 r2 w with ⟨o2, heq, ho⟩ | heq | ⟨mq, heq⟩
  · rw [h] at heq
    injection heq with hw ho2
    subst hw
    subst ho2
    rcases ho with rfl | rfl <;>
      · refine ⟨fun _ => ⟨rfl, rfl, rfl, rfl, rfl⟩, fun hc => ?_⟩
        rcases hc with hc | hc <;> simp at hc
  · rw [h] at heq
    injection heq with hw ho2
    subst hw
    subst ho2
    refine ⟨fun _ => ⟨rfl, rfl, rfl, rfl, rfl⟩, fun hc => ?_⟩
    rcases hc with hc | hc <;> simp at hc
  · rw [heq] at h
    obtain ⟨h1, h2, h3, h4, h5⟩ := qLearnStep_post _ _ _ _ r1 r2 w w2 o h
    refine ⟨fun hc => ?_, fun _ => ⟨⟨_, h1⟩, h2, h3, h4⟩⟩
    rcases h5 with rfl | rfl <;> rcases hc with hc | hc <;> simp at hc

/-- Witness for C10: the starvation tick in `w2c` leaves the learning
state unchanged. -/
theorem C10_forced_switch_frame_witness :
    ({ w2c with starvationEvents := 1 } : World).qTable = w2c.qTable ∧
    ({ w2c with starvationEvents := 1 } : World).currentEpsilon = w2c.currentEpsilon ∧
    ({ w2c with starvationEvents := 1 } : World).totalReward = w2c.totalReward ∧
    ({ w2c with starvationEvents := 1 } : World).prevStateKey = w2c.prevStateKey ∧
    ({ w2c with starvationEvents := 1 } : World).prevAction = w2c.prevAction := by
  have h : update 10 [] 0 0 w2c = ({ w2c with starvationEvents := 1 }, Outcome.starvationSwitch) := by
    norm_num [update, w2c, initialWorld, lt_max_iff, starvationThreshold, minGreen]
  exact (C10_forced_switch_frame w2c 10 [] 0 0 _ _ h).1 (Or.inl rfl)

-- ── C7: discretize ────────────────────────────────────────────────────────

/-- The descending scan is monotone in the value (no assumption on the
bins array is needed): larger values satisfy at least the thresholds
satisfied by smaller values. -/
theorem discretizeAux_mono (v w : ℚ) (h : v ≤ w) (bins : List ℚ) :
    ∀ n, discretizeAux v bins n ≤ discretizeAux w bins n := by
  intro n
  induction n with
  | zero => simp [discretizeAux]
  | succ i ih =>
    simp only [discretizeAux]
    by_cases h1 : v ≥ bins.getD i 0
    · rw [if_pos h1, if_pos (le_trans h1 h)]
    · rw [if_neg h1]
      by_cases h2 : w ≥ bins.getD i 0
      · rw [if_pos h2]
        exact le_trans (discretizeAux_le v bins i) (Nat.sub_le i 1)
      · rw [if_neg h2]
        exact ih

/-- For a sorted prefix, the descending scan over the first `n` bins
returns `(number of thresholds ≤ value among them) - 1`, truncated at
zero. -/
theorem discretizeAux_sorted_count (v : ℚ) (bins : List ℚ) (hs : bins.Sorted (· ≤ ·)) :
    ∀ n, n ≤ bins.length →
      discretizeAux v bins n = ((bins.take n).countP (fun b => decide (b ≤ v))) - 1 := by
  intro n
  induction n with
  | zero => simp [discretizeAux]
  | succ i ih =>
    intro hi
    have hi' : i < bins.length := hi
    have hget : bins.getD i 0 = bins[i] := List.getD_eq_getElem bins 0 hi'
    have htake : bins.take (i + 1) = bins.take i ++ [bins[i]] := by
      rw [List.take_succ]
      simp [List.getElem?_eq_getElem hi']
    simp only [discretizeAux, hget, htake, List.countP_append]
    by_cases hbv : bins[i] ≤ v
    · rw [if_pos hbv]
      have hall : ∀ a ∈ bins.take i, (fun b => decide (b ≤ v)) a = true := by
        intro a ha
        obtain ⟨j, hj, hja⟩ := List.mem_iff_getElem.mp ha
        have hj' : j < i := lt_of_lt_of_le hj (by simp)
        have hjb : j < bins.length := lt_trans hj' hi'
        have := List.pairwise_iff_getElem.mp hs j i hjb hi' hj'
        rw [← hja, List.getElem_take]
        simpa using le_trans this hbv
      rw [List.countP_eq_length.mpr hall]
      have hlen : (bins.take i).length = i := by simp [Nat.min_eq_left (le_of_lt hi')]
      simp [hlen, hbv]
    · rw [if_neg hbv]
      have h0 : List.countP (fun b => decide (b ≤ v)) [bins[i]] = 0 := by
        simp [List.countP_cons, hbv]
      rw [h0, Nat.add_zero]
      exact ih (le_of_lt hi')

/-- `discretize` on a sorted bins array equals the count of thresholds
that are ≤ the value, minus one (truncated at zero). -/
theorem discretize_sorted_count (v : ℚ) (bins : List ℚ) (hs : bins.Sorted (· ≤ ·)) :
    discretize v bins = (bins.filter (fun b => decide (b ≤ v))).length - 1 := by
  have h := discretizeAux_sorted_count v bins hs bins.length le_rfl
  rw [discretize, h, List.take_length, List.countP_eq_length_filter]

/-- Counterexample to C7 as stated: for `value = 5` and the ascending
`queueBins = [0, 3, 7, 12, 20]`, the scan returns bin index 1, but the
count of thresholds ≤ 5 is 2 — the claimed characterisation is off by
one. -/
theorem C7_counterexample :
    discretize 5 queueBins = 1 ∧
    (queueBins.filter (fun b => decide (b ≤ 5))).length = 2 ∧
    discretize 5 queueBins ≠ (queueBins.filter (fun b => decide (b ≤ 5))).length :=
  ⟨by decide, by decide, by decide⟩

/-- C7 (amended).  `discretize(value, bins)` is a pure deterministic
function: equal inputs always yield equal bin indices; for every
ascending bins array the result equals the count of thresholds ≤ value
*minus one* (truncated at zero, which also covers the default-0 case);
and for fixed bins the bin index is non-decreasing in the value. -/
theorem C7_discretize_props :
    (∀ (v1 v2 : ℚ) (b1 b2 : List ℚ), v1 = v2 → b1 = b2 → discretize v1 b1 = discretize v2 b2) ∧
    (∀ (v : ℚ) (bins : List ℚ), bins.Sorted (· ≤ ·) →
      discretize v bins = (bins.filter (fun b => decide (b ≤ v))).length - 1) ∧
    (∀ (v w : ℚ) (bins : List ℚ), v ≤ w → discretize v bins ≤ discretize w bins) := by
  refine ⟨?_, ?_, ?_⟩
  · intro v1 v2 b1 b2 hv hb
    rw [hv, hb]
  · intro v bins hs
    exact discretize_sorted_count v bins hs
  · intro v w bins h
    exact discretizeAux_mono v w h bins bins.length

/-- Witness for the amended C7 on the controller's queue bins. -/
theorem C7_discretize_props_witness :
    discretize 5 queueBins = (queueBins.filter (fun b => decide (b ≤ 5))).length - 1 ∧
    discretize 2 queueBins ≤ discretize 9 queueBins :=
  ⟨C7_discretize_props.2.1 5 queueBins (by decide),
   C7_discretize_props.2.2 2 9 queueBins (by decide)⟩

-- ── C8: the Q-table never exceeds 125 distinct keys ───────────────────────

/-- The keys currently present in a Q-table. -/
def qKeys (t : QTableT) : List String :=
  t.map Prod.fst

/-- All strings `getStateKey` can ever produce: three bin indices in
`0..4` joined by underscores. -/
def keyUniverse : Finset String :=
  ((Finset.range 5) ×ˢ (Finset.range 5) ×ˢ (Finset.range 5)).image
    (fun t => toString t.1 ++ ("_") ++ toString t.2.1 ++ ("_") ++ toString t.2.2)

theorem keyUniverse_card : keyUniverse.card ≤ 125 :=
  le_trans Finset.card_image_le (by simp)

theorem getStateKey_mem (a b c : ℚ) : getStateKey a b c ∈ keyUniverse := by
  apply Finset.mem_image.mpr
  refine ⟨⟨discretize a queueBins, discretize b queueBins, discretize c redBins⟩, ?_, rfl⟩
  simp only [Finset.mem_product, Finset.mem_range]
  refine ⟨?_, ?_, ?_⟩
  · simpa using discretize_lt_length a queueBins (by decide)
  · simpa using discretize_lt_length b queueBins (by decide)
  · simpa using discretize_lt_length c redBins (by decide)

/-- Keys of a Q-table all lie in a set `S`. -/
def keysIn (t : QTableT) (S : Finset String) : Prop :=
  ∀ x ∈ qKeys t, x ∈ S

theorem keysIn_ensureKey {t : QTableT} {S : Finset String} {k : String}
    (h : keysIn t S) (hk : k ∈ S) : keysIn (ensureKey t k) S := by
  intro x hx
  unfold ensureKey at hx
  cases hl : t.lookup k with
  | some e => rw [hl] at hx; exact h x hx
  | none =>
    rw [hl] at hx
    simp only [qKeys, List.map_append, List.mem_append] at hx
    rcases hx with hx | hx
    · exact h x hx
    · simp at hx
      rw [hx]
      exact hk

theorem keysIn_getQValue {t : QTableT} {S : Finset String} {k : String} {a : Action}
    (h : keysIn t S) (hk : k ∈ S) : keysIn (getQValue t k a).2 S := by
  have h2 : (getQValue t k a).2 = ensureKey t k := by
    unfold getQValue
    cases hl : List.lookup k (ensureKey t k) <;> simp [hl]
  rw [h2]
  exact keysIn_ensureKey h hk

theorem keysIn_setQValue {t : QTableT} {S : Finset String} {k : String} {a : Action} {v : ℚ}
    (h : keysIn t S) (hk : k ∈ S) : keysIn (setQValue t k a v) S := by
  intro x hx
  apply keysIn_ensureKey h hk x
  unfold setQValue at hx
  simp only [qKeys, List.map_map] at hx ⊢
  have hmap : List.map (Prod.fst ∘ fun p : String × QEntry =>
      if p.1 = k then (p.1, p.2.set a v) else p) (ensureKey t k) =
      List.map Prod.fst (ensureKey t k) := by
    apply List.map_congr_left
    intro p _
    by_cases hp : p.1 = k <;> simp [hp, Function.comp]
  rwa [hmap] at hx

theorem keysIn_getBestAction {t : QTableT} {S : Finset String} {k : String}
    (h : keysIn t S) (hk : k ∈ S) : keysIn (getBestAction t k).2 S := by
  unfold getBestAction
  exact keysIn_getQValue (keysIn_getQValue h hk) hk

/-- The invariant backing C8: every key in the Q-table, and any pending
previous state key, lies in the 125-element key universe. -/
def QInv (w : World) : Prop :=
  keysIn w.qTable keyUniverse ∧ (∀ k, w.prevStateKey = some k → k ∈ keyUniverse)

/-- The reward-credit block inserts only keys from the universe (the
pending key and the fresh state key). -/
theorem creditPrev_keys {S : Finset String} {k : String} {q : Queues} {a b : ℚ} {w : World}
    (hT : keysIn w.qTable S) (hk : k ∈ S)
    (hpk : ∀ pk, w.prevStateKey = some pk → pk ∈ S) :
    keysIn (creditPrev k q a b w).qTable S := by
  cases hp : w.prevStateKey with
  | none => cases ha : w.prevAction <;> simp only [creditPrev, hp, ha] <;> exact hT
  | some pk =>
    cases ha : w.prevAction with
    | none =>
      simp only [creditPrev, hp, ha]
      exact hT
    | some pa =>
      simp only [creditPrev, hp, ha]
      exact keysIn_setQValue (keysIn_getQValue (keysIn_getQValue
        (keysIn_getQValue hT (hpk pk hp)) hk) hk) (hpk pk hp)

theorem qLearnStep_QInv {k : String} {q : Queues} {mNS mEW r1 r2 : ℚ} {w w2 : World}
    {o : Outcome} (hk : k ∈ keyUniverse) (hw : QInv w)
    (h : qLearnStep k q mNS mEW r1 r2 w = (w2, o)) : QInv w2 := by
  have hprev := (qLearnStep_post k q mNS mEW r1 r2 w w2 o h).1
  refine ⟨?_, ?_⟩
  · simp only [qLearnStep] at h
    repeat' split at h
    all_goals cases h
    all_goals first
      | exact creditPrev_keys hw.1 hk hw.2
      | exact keysIn_getBestAction (creditPrev_keys hw.1 hk hw.2) hk
  · intro k2 hk2
    rw [hprev] at hk2
    injection hk2 with hkk
    rw [← hkk]
    exact hk

/-- The baseline timer block never touches the Q-table or the episode
memory. -/
theorem baselineBlock_learning_frame (d : ℚ) (w : World) :
    (baselineBlock d w).qTable = w.qTable ∧
      (baselineBlock d w).prevStateKey = w.prevStateKey := by
  simp only [baselineBlock, endBaselineFn]
  split_ifs <;> simp

/-- Only the decision tick touches the Q-table or the episode memory;
every other operation leaves both fields unchanged. -/
theorem tick_learning_frame (dt ts : ℚ) (vs : List VSnap) (w : World) :
    (tick dt ts vs w).qTable = w.qTable ∧ (tick dt ts vs w).prevStateKey = w.prevStateKey := by
  simp only [tick]
  split
  · refine ⟨?_, ?_⟩
    · rw [(baselineBlock_learning_frame _ _).1]
    · rw [(baselineBlock_learning_frame _ _).2]
  · exact ⟨rfl, rfl⟩

theorem update_QInv (elapsed : ℚ) (vs : List VSnap) (r1 r2 : ℚ) (w : World)
    (hw : QInv w) : QInv (update elapsed vs r1 r2 w).1 := by
  rcases update_shape elapsed vs r1 r2 w with ⟨o, heq, _⟩ | heq | ⟨mq, heq⟩
  · rw [heq]
    exact hw
  · rw [heq]
    exact hw
  · rw [heq]
    exact qLearnStep_QInv (getStateKey_mem _ _ _) hw rfl

theorem qInv_reachable (w : World) (h : ReachableW w) : QInv w := by
  induction h with
  | init =>
    exact ⟨fun x hx => by simp [qKeys, initialWorld] at hx,
           fun k hk => by simp [initialWorld] at hk⟩
  | tickOp dt ts vs _ ih =>
    refine ⟨?_, ?_⟩
    · unfold keysIn
      rw [(tick_learning_frame dt ts vs _).1]
      exact ih.1
    · rw [(tick_learning_frame dt ts vs _).2]
      exact ih.2
  | updateOp elapsed vs r1 r2 _ ih => exact update_QInv elapsed vs r1 r2 _ ih
  | resetOp _ ih => exact ih
  | startBaselineOp _ ih =>
    constructor
    · intro x hx
      unfold startBaselineFn at hx
      split at hx
      · exact ih.1 x hx
      · exact ih.1 x hx
    · intro k hk
      unfold startBaselineFn at hk
      split at hk
      · exact ih.2 k hk
      · exact ih.2 k hk
  | recordAIOp _ ih => exact ih
  | forceNSOp _ ih =>
    constructor
    · intro x hx
      unfold forceNS at hx
      split at hx
      · exact ih.1 x hx
      · split at hx
        · exact ih.1 x hx
        · exact ih.1 x hx
    · intro k hk
      unfold forceNS at hk
      split at hk
      · exact ih.2 k hk
      · split at hk
        · exact ih.2 k hk
        · exact ih.2 k hk
  | forceEWOp _ ih =>
    constructor
    · intro x hx
      unfold forceEW at hx
      split at hx
      · exact ih.1 x hx
      · split at hx
        · exact ih.1 x hx
        · exact ih.1 x hx
    · intro k hk
      unfold forceEW at hk
      split at hk
      · exact ih.2 k hk
      · split at hk
        · exact ih.2 k hk
        · exact ih.2 k hk
  | toggleAIOp _ ih => exact ih
  | startOp _ ih => exact ih
  | pauseOp _ ih => exact ih

/-- C8.  For every sequence of controller operations, the number of
distinct keys in the Q-table never exceeds 125: every key inserted by
`getQValue`/`setQValue` comes from `getStateKey`, whose three
components are bin indices in `0..4`. -/
theorem C8_qtable_bounded (w : World) (h : ReachableW w) :
    (w.qTable.map Prod.fst).toFinset.card ≤ 125 := by
  have hinv := qInv_reachable w h
  have hsub : (w.qTable.map Prod.fst).toFinset ⊆ keyUniverse := fun x hx =>
    hinv.1 x (List.mem_toFinset.mp hx)
  exact le_trans (Finset.card_le_card hsub) keyUniverse_card

/-- Witness for C8 at the initial (empty) Q-table. -/
theorem C8_qtable_bounded_witness :
    (initialWorld.qTable.map Prod.fst).toFinset.card ≤ 125 :=
  C8_qtable_bounded initialWorld ReachableW.init

-- ── C5: flips during a baseline run ───────────────────────────────────────

/-- Iterate `n` physics ticks (fixed granularity and snapshot), counting
the ticks on which the signals change.  During a pure baseline run the
only signal writes are the fixed-interval flips, so the count is the
number of baseline phase flips. -/
def runBaselineTicks (dt ts : ℚ) (vs : List VSnap) : ℕ → World → World × ℕ
  | 0, w => (w, 0)
  | n + 1, w =>
      let w2 := tick dt ts vs w
      let r := runBaselineTicks dt ts vs n w2
      (r.1, (if w2.signals ≠ w.signals then 1 else 0) + r.2)

theorem runBaselineTicks_one (dt ts : ℚ) (vs : List VSnap) (w : World) :
    runBaselineTicks dt ts vs 1 w =
      (tick dt ts vs w, if (tick dt ts vs w).signals ≠ w.signals then 1 else 0) := by
  simp [runBaselineTicks]

theorem runBaselineTicks_add (dt ts : ℚ) (vs : List VSnap) (m n : ℕ) (w : World) :
    (runBaselineTicks dt ts vs (m + n) w).1 =
      (runBaselineTicks dt ts vs n (runBaselineTicks dt ts vs m w).1).1 ∧
    (runBaselineTicks dt ts vs (m + n) w).2 =
      (runBaselineTicks dt ts vs m w).2 +
        (runBaselineTicks dt ts vs n (runBaselineTicks dt ts vs m w).1).2 := by
  induction m generalizing w with
  | zero => simp [runBaselineTicks]
  | succ i ih =>
    rw [Nat.succ_add]
    simp only [runBaselineTicks]
    obtain ⟨h1, h2⟩ := ih (tick dt ts vs w)
    refine ⟨h1, ?_⟩
    rw [h2, Nat.add_assoc]

/-- The fixed baseline flip always changes the signal pair (it always
writes NS to a value different from the one it read). -/
theorem baselineFlipSig_ne (s : Signals) : baselineFlipSig s ≠ s := by
  unfold baselineFlipSig
  by_cases h : s.NS = Sig.GREEN
  · rw [if_pos h]
    intro hc
    rw [← hc] at h
    simp at h
  · rw [if_neg h]
    intro hc
    apply h
    rw [← hc]

/-- One baseline tick that reaches neither the flip interval nor the
end of the run: both timers advance, signals are untouched. -/
theorem tick_baseline_noflip (dt ts : ℚ) (vs : List VSnap) (w : World)
    (hrun : w.isRunning = true) (hbase : w.isRunningBaseline = true)
    (hphase : w.baselinePhaseTimer + dt * ts < baselinePhaseInterval)
    (hdur : w.baselineTimer + dt * ts < baselineDuration) :
    (tick dt ts vs w).baselineTimer = w.baselineTimer + dt * ts ∧
    (tick dt ts vs w).baselinePhaseTimer = w.baselinePhaseTimer + dt * ts ∧
    (tick dt ts vs w).signals = w.signals ∧
    (tick dt ts vs w).isRunning = true ∧
    (tick dt ts vs w).isRunningBaseline = true := by
  have h1 : ¬ (w.baselinePhaseTimer + dt * ts ≥ baselinePhaseInterval) := not_le.mpr hphase
  have h2 : ¬ (w.baselineTimer + dt * ts ≥ baselineDuration) := not_le.mpr hdur
  simp [tick, baselineBlock, hrun, hbase, h1, h2]

/-- One baseline tick that reaches the 30s flip interval but not the end
of the run: the phase timer resets, the signals flip. -/
theorem tick_baseline_flip (dt ts : ℚ) (vs : List VSnap) (w : World)
    (hrun : w.isRunning = true) (hbase : w.isRunningBaseline = true)
    (hphase : w.baselinePhaseTimer + dt * ts ≥ baselinePhaseInterval)
    (hdur : w.baselineTimer + dt * ts < baselineDuration) :
    (tick dt ts vs w).baselineTimer = w.baselineTimer + dt * ts ∧
    (tick dt ts vs w).baselinePhaseTimer = 0 ∧
    (tick dt ts vs w).signals = baselineFlipSig w.signals ∧
    (tick dt ts vs w).isRunning = true ∧
    (tick dt ts vs w).isRunningBaseline = true := by
  have h2 : ¬ (w.baselineTimer + dt * ts ≥ baselineDuration) := not_le.mpr hdur
  simp [tick, baselineBlock, hrun, hbase, hphase, h2]

/-- One baseline tick that reaches both the flip interval and the end of
the run: the flip fires first, then `endBaseline` stops the run. -/
theorem tick_baseline_flip_end (dt ts : ℚ) (vs : List VSnap) (w : World)
    (hrun : w.isRunning = true) (hbase : w.isRunningBaseline = true)
    (hphase : w.baselinePhaseTimer + dt * ts ≥ baselinePhaseInterval)
    (hdur : w.baselineTimer + dt * ts ≥ baselineDuration) :
    (tick dt ts vs w).signals = baselineFlipSig w.signals ∧
    (tick dt ts vs w).isRunningBaseline = false := by
  simp [tick, baselineBlock, endBaselineFn, hrun, hbase, hphase, hdur]

/-- A flip-free stretch of a baseline run: as long as neither timer
reaches its threshold, `j` ticks just advance both timers and leave the
signals alone. -/
theorem runBaseline_segment (dt ts : ℚ) (vs : List VSnap) (hd : 0 < dt * ts) (j : ℕ) :
    ∀ w : World, w.isRunning = true → w.isRunningBaseline = true →
      w.baselinePhaseTimer + (j : ℚ) * (dt * ts) < baselinePhaseInterval →
      w.baselineTimer + (j : ℚ) * (dt * ts) < baselineDuration →
      (runBaselineTicks dt ts vs j w).2 = 0 ∧
      (runBaselineTicks dt ts vs j w).1.baselineTimer = w.baselineTimer + (j : ℚ) * (dt * ts) ∧
      (runBaselineTicks dt ts vs j w).1.baselinePhaseTimer =
        w.baselinePhaseTimer + (j : ℚ) * (dt * ts) ∧
      (runBaselineTicks dt ts vs j w).1.signals = w.signals ∧
      (runBaselineTicks dt ts vs j w).1.isRunning = true ∧
      (runBaselineTicks dt ts vs j w).1.isRunningBaseline = true := by
  induction j with
  | zero =>
    intro w h1 h2 h3 h4
    simp [runBaselineTicks, h1, h2]
  | succ i ih =>
    intro w h1 h2 h3 h4
    have hid : (0 : ℚ) ≤ (i : ℚ) * (dt * ts) := mul_nonneg (Nat.cast_nonneg i) (le_of_lt hd)
    have hexp : ((i + 1 : ℕ) : ℚ) * (dt * ts) = (i : ℚ) * (dt * ts) + dt * ts := by
      push_cast
      ring
    rw [hexp] at h3 h4
    have hp1 : w.baselinePhaseTimer + dt * ts < baselinePhaseInterval := by linarith
    have hd1 : w.baselineTimer + dt * ts < baselineDuration := by linarith
    obtain ⟨t1, t2, t3, t4, t5⟩ := tick_baseline_noflip dt ts vs w h1 h2 hp1 hd1
    obtain ⟨r0, r1, r2, r3, r4, r5⟩ := ih (tick dt ts vs w) t4 t5
      (by rw [t2]; linarith) (by rw [t1]; linarith)
    refine ⟨?_, ?_, ?_, ?_, r4, r5⟩
    · simp [runBaselineTicks, t3, r0]
    · simp only [runBaselineTicks]
      rw [r1, t1, hexp]
      ring
    · simp only [runBaselineTicks]
      rw [r2, t2, hexp]
      ring
    · simp only [runBaselineTicks]
      rw [r3, t3]

/-- A full baseline run at granularity `dt·ts` with `k+1` ticks per 30s
phase interval: the run performs exactly two flips — one when the phase
timer reaches 30s, and one on the very tick that ends the run at 60s,
because the flip check precedes the end-of-run check. -/
theorem baseline_run_flips (dt ts : ℚ) (vs : List VSnap) (k : ℕ) (hd : 0 < dt * ts)
    (hk : ((k : ℚ) + 1) * (dt * ts) = baselinePhaseInterval) (w : World)
    (h1 : w.isRunning = true) (h2 : w.isRunningBaseline = true)
    (h3 : w.baselineTimer = 0) (h4 : w.baselinePhaseTimer = 0) :
    (runBaselineTicks dt ts vs (2 * (k + 1)) w).2 = 2 ∧
    (runBaselineTicks dt ts vs (2 * (k + 1)) w).1.isRunningBaseline = false := by
  have h30 : baselinePhaseInterval = (30 : ℚ) := rfl
  have h60 : baselineDuration = (60 : ℚ) := rfl
  have hexp : ((k : ℚ) + 1) * (dt * ts) = (k : ℚ) * (dt * ts) + dt * ts := by ring
  rw [hexp, h30] at hk
  have hkd30 : (k : ℚ) * (dt * ts) < 30 := by linarith
  have hkd0 : (0 : ℚ) ≤ (k : ℚ) * (dt * ts) := mul_nonneg (Nat.cast_nonneg k) (le_of_lt hd)
  -- phase 1: k flip-free ticks
  obtain ⟨a0, a1, a2, a3, a4, a5⟩ := runBaseline_segment dt ts vs hd k w h1 h2
    (by rw [h4, h30]; linarith) (by rw [h3, h60]; linarith)
  -- the first flip tick
  obtain ⟨b1, b2, b3, b4, b5⟩ := tick_baseline_flip dt ts vs
    ((runBaselineTicks dt ts vs k w).1) a4 a5
    (by rw [a2, h4, h30]; linarith) (by rw [a1, h3, h60]; linarith)
  -- phase 2: k more flip-free ticks
  obtain ⟨c0, c1, c2, c3, c4, c5⟩ := runBaseline_segment dt ts vs hd k
    (tick dt ts vs ((runBaselineTicks dt ts vs k w).1)) b4 b5
    (by rw [b2, h30]; linarith) (by rw [b1, a1, h3, h60]; linarith)
  -- the second flip tick, which also ends the run
  obtain ⟨e3, e5⟩ := tick_baseline_flip_end dt ts vs
    ((runBaselineTicks dt ts vs k (tick dt ts vs ((runBaselineTicks dt ts vs k w).1))).1) c4 c5
    (by rw [c2, b2, h30]; linarith) (by rw [c1, b1, a1, h3, h60]; linarith)
  -- assemble the four pieces
  have hw1 : (runBaselineTicks dt ts vs (k + 1) w).1 =
      tick dt ts vs ((runBaselineTicks dt ts vs k w).1) := by
    rw [(runBaselineTicks_add dt ts vs k 1 w).1, runBaselineTicks_one]
  have hc1 : (runBaselineTicks dt ts vs (k + 1) w).2 = 1 := by
    rw [(runBaselineTicks_add dt ts vs k 1 w).2, a0, runBaselineTicks_one]
    simp [b3, baselineFlipSig_ne]
  have hw2 : (runBaselineTicks dt ts vs (k + 1)
        (tick dt ts vs ((runBaselineTicks dt ts vs k w).1))).1 =
      tick dt ts vs ((runBaselineTicks dt ts vs k
        (tick dt ts vs ((runBaselineTicks dt ts vs k w).1))).1) := by
    rw [(runBaselineTicks_add dt ts vs k 1 _).1, runBaselineTicks_one]
  have hc2 : (runBaselineTicks dt ts vs (k + 1)
      (tick dt ts vs ((runBaselineTicks dt ts vs k w).1))).2 = 1 := by
    rw [(runBaselineTicks_add dt ts vs k 1 _).2, c0, runBaselineTicks_one]
    simp [e3, baselineFlipSig_ne]
  have hsplit : 2 * (k + 1) = (k + 1) + (k + 1) := by ring
  rw [hsplit]
  constructor
  · rw [(runBaselineTicks_add dt ts vs (k + 1) (k + 1) w).2, hc1, hw1, hc2]
  · rw [(runBaselineTicks_add dt ts vs (k + 1) (k + 1) w).1, hw1, hw2, e5]

/-- The state right after pressing Start and then Baseline (the
baseline button auto-starts the simulation first). -/
def baselineStartWorld : World :=
  startBaselineFn (btnStartFn initialWorld)

/-- Counterexample to C5 as stated: at tick granularity 30s (which
divides 30s evenly), the 60-second baseline run performs TWO phase
flips, not one — the flip at `baselineTimer = 60` fires in the same
tick as, and before, the end-of-run check. -/
theorem C5_counterexample :
    (runBaselineTicks 30 1 [] 2 baselineStartWorld).2 = 2 ∧
    (runBaselineTicks 30 1 [] 2 baselineStartWorld).1.isRunningBaseline = false ∧
    (2 : ℕ) ≠ 1 := by
  have h := baseline_run_flips 30 1 [] 0 (by norm_num)
    (by norm_num [baselinePhaseInterval]) baselineStartWorld rfl rfl rfl rfl
  exact ⟨by simpa using h.1, by simpa using h.2, by norm_num⟩

/-- C5 (amended).  A baseline run of 60 seconds with the fixed
30s-per-phase cycling produces exactly TWO phase flips when the tick
granularity divides 30s evenly (`k+1` ticks per 30s interval): one when
`baselinePhaseTimer` reaches 30, and a second on the final tick at
`baselineTimer = 60`, because `tick()` checks the phase flip before the
end-of-run condition; the run then ends. -/
theorem C5_baseline_two_flips (dt ts : ℚ) (vs : List VSnap) (k : ℕ)
    (hd : 0 < dt * ts) (hk : ((k : ℚ) + 1) * (dt * ts) = baselinePhaseInterval) :
    (runBaselineTicks dt ts vs (2 * (k + 1)) baselineStartWorld).2 = 2 ∧
    (runBaselineTicks dt ts vs (2 * (k + 1)) baselineStartWorld).1.isRunningBaseline = false :=
  baseline_run_flips dt ts vs k hd hk baselineStartWorld rfl rfl rfl rfl

/-- Witness for the amended C5 at granularity 15s (two ticks per
phase interval). -/
theorem C5_baseline_two_flips_witness :
    (runBaselineTicks 15 1 [] (2 * (1 + 1)) baselineStartWorld).2 = 2 ∧
    (runBaselineTicks 15 1 [] (2 * (1 + 1)) baselineStartWorld).1.isRunningBaseline = false :=
  C5_baseline_two_flips 15 1 [] 1 (by norm_num) (by norm_num [baselinePhaseInterval])

-- ── C6: one concrete Q-update ─────────────────────────────────────────────

/-- A controller state ten seconds into an NS-green phase: a pending
(state, action) pair `("0_0_0", KEEP)` with no table entry yet
(`oldQ = 0`), a `KEEP` value of 2 stored for the upcoming state
`"1_1_0"` (`bestFuture = 2`), and lane N red for 5s while the EW lanes
are red for 0s (`fairnessBonus = -0.5`). -/
def w6 : World :=
  { initialWorld with
    isRunning := true
    isAIEnabled := true
    signals := ⟨Sig.GREEN, Sig.RED⟩
    laneState := ⟨⟨5, 0⟩, ⟨0, 0⟩, ⟨0, 0⟩, ⟨0, 0⟩⟩
    prevStateKey := some ("0_0_0")
    prevAction := some Action.KEEP
    qTable := [(("1_1_0"), ⟨2, 0⟩)] }

/-- Ten waiting vehicles, five from N and five from E
(`totalWaiting = 10`). -/
def vs6 : List VSnap :=
  List.replicate 5 ⟨true, true, Dir.N⟩ ++ List.replicate 5 ⟨true, true, Dir.E⟩

/-- The Q-table after the update under scrutiny. -/
def t6 : QTableT := [(("1_1_0"), ⟨2, 0⟩), (("0_0_0"), ⟨-1.305, 0⟩)]

/-- The controller state after the reward-credit block of the update
under scrutiny. -/
def w6b : World := { w6 with totalReward := -10.5, qTable := t6 }

/-- In `w6`, the decision tick falls through to the Q-learning branch
with state key `"1_1_0"`, `maxRedNS = 5` and `maxRedEW = 0`. -/
theorem update_w6_eq :
    update 10 vs6 1 0 w6 = qLearnStep ("1_1_0") ⟨5, 0, 5, 0⟩ 5 0 1 0 w6 := by
  simp only [update]
  rw [if_neg (by decide), if_neg (by decide), if_neg (by decide),
    if_neg (by decide), if_neg (by decide), if_neg (by decide), if_neg (by decide)]
  congr 1

theorem setQValue_w6 (v : ℚ) :
    setQValue [(("1_1_0"), (⟨2, 0⟩ : QEntry)), (("0_0_0"), ⟨0, 0⟩)] ("0_0_0") Action.KEEP v =
      [(("1_1_0"), ⟨2, 0⟩), (("0_0_0"), ⟨v, 0⟩)] := by
  simp only [setQValue]
  rw [show ensureKey [(("1_1_0"), (⟨2, 0⟩ : QEntry)), (("0_0_0"), ⟨0, 0⟩)] ("0_0_0") =
    [(("1_1_0"), (⟨2, 0⟩ : QEntry)), (("0_0_0"), ⟨0, 0⟩)] from rfl]
  simp [QEntry.set]

/-- The reward-credit block in `w6`: `reward = -10.5` is added to the
total, the entry for the pending key is lazily created with value 0,
and the Q-update writes `-1.305` into it. -/
theorem creditPrev_w6 : creditPrev ("1_1_0") ⟨5, 0, 5, 0⟩ 5 0 w6 = w6b := by
  unfold creditPrev
  rw [show w6.prevStateKey = some ("0_0_0") from rfl,
    show w6.prevAction = some Action.KEEP from rfl]
  simp only [show w6.qTable = [(("1_1_0"), (⟨2, 0⟩ : QEntry))] from rfl,
    show getQValue [(("1_1_0"), (⟨2, 0⟩ : QEntry))] ("0_0_0") Action.KEEP =
      ((0 : ℚ), [(("1_1_0"), ⟨2, 0⟩), (("0_0_0"), ⟨0, 0⟩)]) from rfl,
    show getQValue [(("1_1_0"), (⟨2, 0⟩ : QEntry)), (("0_0_0"), ⟨0, 0⟩)] ("1_1_0") Action.KEEP =
      ((2 : ℚ), [(("1_1_0"), ⟨2, 0⟩), (("0_0_0"), ⟨0, 0⟩)]) from rfl,
    show getQValue [(("1_1_0"), (⟨2, 0⟩ : QEntry)), (("0_0_0"), ⟨0, 0⟩)] ("1_1_0") Action.SWITCH =
      ((0 : ℚ), [(("1_1_0"), ⟨2, 0⟩), (("0_0_0"), ⟨0, 0⟩)]) from rfl,
    setQValue_w6]
  norm_num [w6b, t6, qAlpha, qGamma, show max (2 : ℚ) 0 = 2 from by decide,
    show w6.totalReward = 0 from rfl, show w6.prevStateKey = some ("0_0_0") from rfl,
    show w6.prevAction = some Action.KEEP from rfl]

theorem getBestAction_t6 : getBestAction t6 ("1_1_0") = (Action.KEEP, t6) := rfl

/-- C6.  One Q-learning update step with previous reward components
`totalWaiting = 10` and `fairnessBonus = -0.5` (so `reward = -10.5`),
`oldQ = 0`, `bestFuture = 2`, `α = 0.15`, `γ = 0.9` yields
`newQ = oldQ + α·(reward + γ·bestFuture − oldQ) = −1.305`, as computed
by the update in `AIController.update`: the decision tick writes the
entry `-1.305` into the Q-table at the previous (state, action) pair. -/
theorem C6_q_update_value :
    (update 10 vs6 1 0 w6).1.qTable.lookup ("0_0_0") = some ⟨-1.305, 0⟩ ∧
    (0 : ℚ) + qAlpha * (-(10 : ℚ) + -0.5 + qGamma * 2 - 0) = -1.305 := by
  constructor
  · rw [update_w6_eq]
    simp only [qLearnStep, creditPrev_w6]
    rw [if_neg (show ¬ ((1 : ℚ) < w6b.currentEpsilon) from by
      norm_num [show w6b.currentEpsilon = (0.3 : ℚ) from rfl])]
    rw [show w6b.qTable = t6 from rfl, getBestAction_t6]
    rw [if_neg (by decide)]
    rfl
  · norm_num [qAlpha, qGamma]

end AITraffic
